import Mathlib

/-!
Verification development for the TorrentCLI repository.

Shallow embedding of the acquisition engine: the aggregator HTTP client
(zil_api_client.py), the torrent submission and polling flow, the direct
file downloader retry loop, the two background loops and the indexed
download command (torrent_cli.py, with yarr.py as a structural twin).

Python dictionaries from the wire are modelled as JVal association
objects; Python exceptions are modelled with Except; time.sleep calls
are recorded as waits in result traces.
-/

/-- A JSON-ish Python value as it arrives from the aggregator API. -/
inductive JVal where
  | jnull : JVal
  | jbool : Bool → JVal
  | jnum : Int → JVal
  | jstr : String → JVal
  | jobj : List (String × JVal) → JVal

/-- Association-list lookup, modelling Python dict key lookup. -/
def getField : List (String × JVal) → String → Option JVal
  | [], _ => none
  | (k, v) :: rest, key => if k = key then some v else getField rest key

/-- Python d.get(key, default): total on dict objects, raises
AttributeError (modelled as Except.error) on any non-dict value. -/
def pyGet (v : JVal) (key : String) (dflt : JVal) : Except String JVal :=
  match v with
  | .jobj kvs => .ok ((getField kvs key).getD dflt)
  | _ => .error ("AttributeError")

/-- Python truthiness on the JVal fragment. -/
def truthy : JVal → Bool
  | .jnull => false
  | .jbool b => b
  | .jnum n => n != 0
  | .jstr s => !s.isEmpty
  | .jobj kvs => !kvs.isEmpty

/-- Python a or b (short-circuit, value-returning). -/
def pyOr (a b : JVal) : JVal := if truthy a then a else b

/-- Python v == s for a string literal s: false on non-strings, no raise. -/
def jEqStr (v : JVal) (s : String) : Bool :=
  match v with
  | .jstr t => t == s
  | _ => false

/-- The DownloadType enum of zil_api_client.py. -/
inductive DownloadType where
  | magnet
  | direct
  | torrent
deriving DecidableEq

/-- The SearchResult dataclass of zil_api_client.py. Fields keep the raw
wire values (Python performs no coercion when filling the dataclass). -/
structure SearchResult where
  title : JVal
  download_url : JVal
  download_type : DownloadType
  info_hash : JVal
  size : JVal
  size_bytes : JVal
  seeders : JVal
  leechers : JVal
  category : JVal
  source : JVal
  publish_date : JVal
  extra : JVal

/-- SearchResult.from_api_response (zil_api_client.py lines 52-93).
data.get raises on a non-dict record; extra.get("download_type") raises
when the record's "extra" entry is present but not a dict; for a direct
record the download url is extra mirror, falling back to magnet_uri and
then link; every other field is copied with its Python default. -/
def from_api_response (data : JVal) : Except String SearchResult :=
  match data with
  | .jobj kvs =>
    match (getField kvs ("extra")).getD (.jobj []) with
    | .jobj ekvs =>
      let download_type_str :=
        pyOr ((getField ekvs ("download_type")).getD .jnull)
             ((getField kvs ("download_type")).getD (.jstr ("torrent")))
      let download_type :=
        if jEqStr download_type_str ("direct") then DownloadType.direct
        else if jEqStr download_type_str ("magnet") then DownloadType.magnet
        else DownloadType.torrent
      let download_url :=
        if download_type = DownloadType.direct then
          pyOr (pyOr ((getField ekvs ("mirror")).getD (.jstr ("")))
                     ((getField kvs ("magnet_uri")).getD (.jstr (""))))
               ((getField kvs ("link")).getD (.jstr ("")))
        else
          pyOr ((getField kvs ("magnet_uri")).getD (.jstr ("")))
               ((getField kvs ("link")).getD (.jstr ("")))
      .ok { title := (getField kvs ("title")).getD (.jstr (""))
            download_url := download_url
            download_type := download_type
            info_hash := (getField kvs ("info_hash")).getD (.jstr (""))
            size := (getField kvs ("size")).getD (.jstr (""))
            size_bytes := (getField kvs ("size_bytes")).getD (.jnum 0)
            seeders := (getField kvs ("seeders")).getD (.jnum 0)
            leechers := (getField kvs ("leechers")).getD (.jnum 0)
            category := (getField kvs ("category")).getD (.jstr (""))
            source := (getField kvs ("source")).getD (.jstr (""))
            publish_date := (getField kvs ("publish_date")).getD (.jstr (""))
            extra := .jobj ekvs }
    | _ => .error ("AttributeError")
  | _ => .error ("AttributeError")

/-- The per-element try/except mapping loop of GoTorrentAPI.search
(zil_api_client.py lines 168-177): a record whose construction raises is
skipped, the rest are kept in order. -/
def searchResults : List JVal → List SearchResult
  | [] => []
  | item :: rest =>
    match from_api_response item with
    | .ok r => r :: searchResults rest
    | .error _ => searchResults rest

/-- What the network does on one HTTP attempt. -/
inductive HttpOutcome where
  | status (code : Nat)
  | connError
  | timeout
  | otherError
deriving DecidableEq

/-- The APIError categories raised by GoTorrentAPI._make_request. -/
inductive APIErrorKind where
  | notFound
  | serverError (code : Nat)
  | httpOther (code : Nat)
  | connectionFailed
  | timedOut
  | requestFailed
deriving DecidableEq

/-- One run of the transport: result, number of attempts made, and the
sleep durations between attempts. -/
structure ReqRun where
  result : Except APIErrorKind Nat
  attempts : Nat
  waits : List Nat

/-- GoTorrentAPI._make_request (zil_api_client.py lines 122-145) driven
by a transcript of network outcomes (first outcome, then the outcomes
later attempts would see). The code performs a single
session.request + raise_for_status and converts each failure to an
APIError: it never consumes more than the first outcome. -/
def make_request (first : HttpOutcome) (_rest : List HttpOutcome) : ReqRun :=
  match first with
  | .status c =>
    if 400 ≤ c ∧ c < 600 then
      if c = 404 then ⟨.error .notFound, 1, []⟩
      else if 500 ≤ c then ⟨.error (.serverError c), 1, []⟩
      else ⟨.error (.httpOther c), 1, []⟩
    else ⟨.ok c, 1, []⟩
  | .connError => ⟨.error .connectionFailed, 1, []⟩
  | .timeout => ⟨.error .timedOut, 1, []⟩
  | .otherError => ⟨.error .requestFailed, 1, []⟩

/-- Python str.lower on a character list (ASCII, as in the names the CLI
compares). -/
def pyLower (s : List Char) : List Char := s.map Char.toLower

/-- Python substring containment needle in hay (contiguous occurrence;
the empty needle occurs in everything). -/
def isSub (needle : List Char) : List Char → Bool
  | [] => needle.isEmpty
  | c :: t => needle.isPrefixOf (c :: t) || isSub needle t

/-- Worker for pyWords: accumulates the current word reversed. -/
def pyWordsAux : List Char → List Char → List (List Char)
  | [], acc => if acc.isEmpty then [] else [acc.reverse]
  | c :: t, acc =>
    if c.isWhitespace then
      if acc.isEmpty then pyWordsAux t [] else acc.reverse :: pyWordsAux t []
    else pyWordsAux t (c :: acc)

/-- Python str.split() with no separator: whitespace-separated words,
empty pieces dropped. -/
def pyWords (s : List Char) : List (List Char) := pyWordsAux s []

/-- The fuzzy match predicate inside find_torrent_by_name
(torrent_cli.py lines 241-253): lowercased substring either way, or some
word of the lowercased title longer than 3 characters occurring in the
lowercased entry name. -/
def find_torrent_match (search_name torrent_name : List Char) : Bool :=
  let s := pyLower search_name
  let t := pyLower torrent_name
  isSub s t || isSub t s ||
    (pyWords s).any (fun w => decide (3 < w.length) && isSub w t)

/-- qBittorrent torrent states observed while polling. -/
inductive TState where
  | downloading
  | metaDL
  | uploading
  | stalledUP
  | queuedUP
  | errored
  | other
deriving DecidableEq

/-- One observation of the polled torrent: either the handle has
vanished from the daemon listing (IndexError branch) or a state plus a
progress percentage (progress * 100, so 100 means progress >= 1.0). -/
inductive PollStep where
  | missing
  | obs (st : TState) (progressPct : Nat)

/-- How the polling loop of download_with_progress terminates. -/
inductive PollExit where
  | doneUpload
  | progressDone
  | errorBreak
  | lost
  | stillPolling
deriving DecidableEq

/-- The while-not-finished polling loop of download_with_progress
(torrent_cli.py lines 586-629): IndexError on a vanished handle breaks;
progress >= 1.0 in an upload state breaks; state error breaks;
progress >= 1.0 otherwise finishes the rich task, ending the loop at its
condition; an exhausted transcript means the loop is still running. -/
def pollLoop : List PollStep → PollExit
  | [] => .stillPolling
  | .missing :: _ => .lost
  | .obs st p :: rest =>
    if 100 ≤ p ∧ (st = .uploading ∨ st = .stalledUP ∨ st = .queuedUP) then .doneUpload
    else if st = .errored then .errorBreak
    else if 100 ≤ p then .progressDone
    else pollLoop rest

/-- The item dictionary fields download_with_progress consults on the
torrent path. -/
structure TorrentItem where
  isDirect : Bool
  magnetUri : Option String
  link : Option String

/-- The configuration keys download_with_progress consults. -/
structure TCfg where
  max_active_downloads : Nat
  auto_remove_completed : Bool

/-- Python truthiness of an optional string (None and the empty string
are falsy). -/
def strFalsy : Option String → Bool
  | none => true
  | some s => s.isEmpty

/-- Python a or b on optional strings. -/
def pyOrStr (a b : Option String) : Option String := if strFalsy a then b else a

/-- Python s.startswith(pre), computed on the character lists. -/
def pyStartsWith (s pre : String) : Bool := pre.toList.isPrefixOf s.toList

/-- Outcome of one download_with_progress run. -/
inductive TOutcome where
  | delegatedDirect
  | capacity
  | noLink
  | invalidLink
  | addFailed
  | handleNotFound
  | polled (e : PollExit)
deriving DecidableEq

/-- Observable effects of one download_with_progress run: daemon
add-torrent calls made, whether a history entry was appended, and the
outcome. -/
structure TRun where
  addCalls : Nat
  historyAppend : Bool
  outcome : TOutcome
deriving DecidableEq

/-- download_with_progress (torrent_cli.py lines 484-649; yarr.py lines
523-688), driven by the daemon environment: number of active downloads
reported, whether torrents_add succeeds, the find_torrent_by_name
result, and the poll observations. After the poll loop exits — by
completion, by daemon error state, or by a vanished handle alike —
control falls through to the success panel and the history append. -/
def download_with_progress (item : TorrentItem) (cfg : TCfg) (active : Nat)
    (addOk : Bool) (located : Option String) (polls : List PollStep) : TRun :=
  if item.isDirect then ⟨0, false, .delegatedDirect⟩
  else if cfg.max_active_downloads ≤ active then ⟨0, false, .capacity⟩
  else
    let mag := pyOrStr item.magnetUri item.link
    if strFalsy mag then ⟨0, false, .noLink⟩
    else
      let m := mag.getD ("")
      if !(pyStartsWith m ("magnet:") || pyStartsWith m ("http")) then
        ⟨0, false, .invalidLink⟩
      else if !addOk then ⟨1, false, .addFailed⟩
      else
        match located with
        | none => ⟨1, false, .handleNotFound⟩
        | some _ =>
          match pollLoop polls with
          | .stillPolling => ⟨1, false, .polled .stillPolling⟩
          | e => ⟨1, true, .polled e⟩

/-- What one streaming attempt of download_direct_file does: complete
after writing some bytes, raise after writing some bytes, or raise
before the destination file is even opened. -/
inductive DLAttempt where
  | ok (bytes : Nat)
  | failAt (written : Nat)
  | failBeforeOpen
deriving DecidableEq

/-- Trace of one download_direct_file retry loop run: the destination
file size at the end (none when absent or deleted), success flag, the
sleep durations between attempts, the Range offset each attempt sent
(none when starting fresh), the file state each attempt saw on entry,
and the number of attempts made. -/
structure DLResult where
  file : Option Nat
  success : Bool
  waits : List Nat
  offsets : List (Option Nat)
  files : List (Option Nat)
  attempts : Nat
deriving DecidableEq

/-- The while retry_count < max_retries loop of download_direct_file
(torrent_cli.py lines 340-431; yarr.py lines 395-470), with fuel the
number of iterations the budget still allows (max_retries minus
retry_count). Each iteration reads the current partial file size as the
resume offset, sends a Range header when that offset is positive, and
appends; a failure with fuel left sleeps 2 and retries; the final
failure unlinks the partial file. -/
def download_loop (att : Nat → DLAttempt) : Nat → Nat → Option Nat → DLResult
  | _, 0, file => ⟨file, false, [], [], [], 0⟩
  | idx, fuel + 1, file =>
    let offset := file.getD 0
    let rangeHdr : Option Nat := if 0 < offset then some offset else none
    match att idx with
    | .ok b => ⟨some (offset + b), true, [], [rangeHdr], [file], 1⟩
    | .failAt w =>
      if fuel = 0 then ⟨none, false, [], [rangeHdr], [file], 1⟩
      else
        let r := download_loop att (idx + 1) fuel (some (offset + w))
        ⟨r.file, r.success, 2 :: r.waits, rangeHdr :: r.offsets, file :: r.files,
          r.attempts + 1⟩
    | .failBeforeOpen =>
      if fuel = 0 then ⟨none, false, [], [rangeHdr], [file], 1⟩
      else
        let r := download_loop att (idx + 1) fuel file
        ⟨r.file, r.success, 2 :: r.waits, rangeHdr :: r.offsets, file :: r.files,
          r.attempts + 1⟩

/-- download_direct_file's streaming section entered with max_retries = 3
and retry_count = 0, on a destination that may already hold a partial
file. -/
def download_direct_file (att : Nat → DLAttempt) (file0 : Option Nat) : DLResult :=
  download_loop att 0 3 file0

/-- Environment of one health_monitor loop iteration: the config read
(which load_json performs unguarded), the aggregator probe, and the
daemon session attempt (both guarded by try/except). -/
structure HealthEnv where
  configRead : Except Unit Nat
  probe : Except Unit Nat
  daemonConnect : Except Unit Unit

/-- Effects of a completed health_monitor iteration. -/
structure HealthTickOut where
  notified : Bool
  sleptFor : Nat
deriving DecidableEq

/-- One iteration of health_monitor (torrent_cli.py lines 162-181).
load_json runs outside any try/except; the probe and the qb_client
attempt each run inside their own try/except, any exception counting as
unhealthy; unhealthy emits a notification. -/
def health_monitor_tick (env : HealthEnv) : Except Unit HealthTickOut :=
  match env.configRead with
  | .error e => .error e
  | .ok interval =>
    let probeHealthy :=
      match env.probe with
      | .ok code => decide (code = 200)
      | .error _ => false
    let daemonHealthy :=
      match env.daemonConnect with
      | .ok _ => true
      | .error _ => false
    .ok ⟨!(probeHealthy && daemonHealthy), interval⟩

/-- A persisted ScheduledSearch record (schedule.json entry). -/
structure STask where
  query : String
  time : Int
  done : Bool
  limit : Nat
deriving DecidableEq

/-- Environment of one schedule_runner loop iteration: the two file
reads and the daemon connection (all unguarded), the current time, and
how many results fetch returns per query (fetch itself swallows
APIError and returns an empty list in that case). -/
structure SchedEnv where
  scheduleRead : Except Unit (List STask)
  configRead : Except Unit Unit
  daemonConnect : Except Unit Unit
  now : Int
  fetchRes : String → Nat → Nat

/-- Trace of the for-loop over schedule records: the updated record
list (or the exception that escaped), the updated flag, the queries
searched, and the torrents_add calls made. -/
structure TasksOut where
  tasks : Except Unit (List STask)
  updated : Bool
  searched : List String
  adds : Nat

/-- The for task in sched body of schedule_runner (torrent_cli.py lines
191-201). A record that is not done and whose time has arrived is
searched; fetch returns SearchResult dataclass objects, so a non-empty
result list makes the magnet extraction raise AttributeError before
torrents_add or any record mutation is reached. -/
def schedule_runner_tasks (env : SchedEnv) : List STask → TasksOut
  | [] => ⟨.ok [], false, [], 0⟩
  | t :: ts =>
    if !t.done ∧ t.time ≤ env.now then
      if 0 < env.fetchRes t.query t.limit then
        ⟨.error (), false, [t.query], 0⟩
      else
        let r := schedule_runner_tasks env ts
        ⟨r.tasks.map (t :: ·), r.updated, t.query :: r.searched, r.adds⟩
    else
      let r := schedule_runner_tasks env ts
      ⟨r.tasks.map (t :: ·), r.updated, r.searched, r.adds⟩

/-- Effects of one schedule_runner iteration: the in-memory schedule at
the end (or the escaped exception), how many times the schedule file
was written and with what content, the queries searched, and the
torrents_add calls made. -/
structure SchedTickOut where
  result : Except Unit (List STask)
  writes : Nat
  written : Option (List STask)
  searched : List String
  adds : Nat

/-- One iteration of schedule_runner (torrent_cli.py lines 184-204):
load both files, connect to the daemon, run the record loop, and save
the schedule once at the end only when the updated flag was set. None
of these steps is inside a try/except. -/
def schedule_runner_tick (env : SchedEnv) : SchedTickOut :=
  match env.scheduleRead with
  | .error e => ⟨.error e, 0, none, [], 0⟩
  | .ok sched =>
    match env.configRead with
    | .error e => ⟨.error e, 0, none, [], 0⟩
    | .ok _ =>
      match env.daemonConnect with
      | .error e => ⟨.error e, 0, none, [], 0⟩
      | .ok _ =>
        let r := schedule_runner_tasks env sched
        match r.tasks with
        | .error e => ⟨.error e, 0, none, r.searched, r.adds⟩
        | .ok sched' =>
          if r.updated then ⟨.ok sched', 1, some sched', r.searched, r.adds⟩
          else ⟨.ok sched', 0, none, r.searched, r.adds⟩

/-- Python list indexing results[i] with negative-index wrap-around and
IndexError outside the bounds. -/
def pyListIndex (l : List JVal) (i : Int) : Except Unit JVal :=
  let j := if i < 0 then i + l.length else i
  if h : 0 ≤ j ∧ j < (l.length : Int) then
    .ok (l.get ⟨j.toNat, by omega⟩)
  else .error ()

/-- Effects of one download command invocation: the item handed to
download_with_progress (none when the command errored out first),
whether the invalid-index error was reported, and how many persisted
files the command itself wrote before delegating. -/
structure DownloadCmdOut where
  delegated : Option JVal
  invalidIndexError : Bool
  writes : Nat

/-- The download command (torrent_cli.py lines 837-856; yarr.py lines
941-963): load last results, reject any index outside 1..len(results)
with an error message and return, otherwise take results[index - 1] and
delegate. The unreachable IndexError inside the guarded branch is
mapped to the error output. -/
def download_command (results : List JVal) (index : Int) : DownloadCmdOut :=
  if 1 ≤ index ∧ index ≤ (results.length : Int) then
    match pyListIndex results (index - 1) with
    | .ok item => ⟨some item, false, 0⟩
    | .error _ => ⟨none, true, 0⟩
  else ⟨none, true, 0⟩

/-- Claim C1 (counterexample): against a transcript of two 503 responses
followed by a 200, the transport does not retry: the call fails after
exactly one attempt with a server error and performs no backoff waits,
so it neither succeeds after 3 attempts nor produces an Exhausted
failure. -/
theorem C1_counterexample :
    make_request (.status 503) [.status 503, .status 200] =
      ⟨.error (.serverError 503), 1, []⟩ := by
  rfl

/-- Claim C1 (amended): every aggregator request makes exactly one
attempt with no waits between attempts; a 5xx status raises a server
error APIError immediately, a connection failure raises immediately,
and a read timeout raises immediately — there is no retry bound, no
exponential backoff, and no separate Exhausted failure. -/
theorem C1_theorem (first : HttpOutcome) (rest : List HttpOutcome) :
    (make_request first rest).attempts = 1 ∧
    (make_request first rest).waits = [] ∧
    (∀ c, first = .status c → 500 ≤ c → c < 600 →
      (make_request first rest).result = .error (.serverError c)) ∧
    (first = .connError →
      (make_request first rest).result = .error .connectionFailed) ∧
    (first = .timeout → (make_request first rest).result = .error .timedOut) := by
  refine ⟨?_, ?_, ?_, ?_, ?_⟩
  · cases first <;> simp only [make_request] <;> (repeat' split) <;> rfl
  · cases first <;> simp only [make_request] <;> (repeat' split) <;> rfl
  · rintro c rfl h1 h2
    simp only [make_request]
    rw [if_pos ⟨by omega, h2⟩, if_neg (by omega), if_pos h1]
  · rintro rfl; rfl
  · rintro rfl; rfl

/-- Claim C1 (witness): the amended single-attempt behaviour evaluated
at a connection failure and at a 503 response. -/
theorem C1_witness :
    (make_request .connError []).result = .error .connectionFailed ∧
    (make_request (.status 503) []).attempts = 1 ∧
    (make_request (.status 503) []).result = .error (.serverError 503) :=
  ⟨(C1_theorem .connError []).2.2.2.1 rfl,
   (C1_theorem (.status 503) []).1,
   (C1_theorem (.status 503) []).2.2.1 503 rfl (by norm_num) (by norm_num)⟩

/-- Torrent item used to drive the failing torrent acquisitions. -/
def c2item : TorrentItem := ⟨false, some ("magnet:?xt=urn:btih:bbbb"), none⟩

/-- Configuration used to drive the failing torrent acquisitions. -/
def c2cfg : TCfg := ⟨5, false⟩

/-- Claim C2: a torrent acquisition whose daemon-reported state becomes
error during polling, and one whose handle vanishes from the daemon
listing, both still append a HistoryEntry — the code breaks out of the
poll loop and falls through to the success path, so failed torrent
acquisitions are recorded in history, contradicting the claim. -/
theorem C2_theorem :
    ((download_with_progress c2item c2cfg 0 true (some ("h1"))
        [.obs .downloading 40, .obs .errored 40]).outcome =
          .polled .errorBreak ∧
     (download_with_progress c2item c2cfg 0 true (some ("h1"))
        [.obs .downloading 40, .obs .errored 40]).historyAppend = true) ∧
    ((download_with_progress c2item c2cfg 0 true (some ("h1"))
        [.obs .downloading 40, .missing]).outcome = .polled .lost ∧
     (download_with_progress c2item c2cfg 0 true (some ("h1"))
        [.obs .downloading 40, .missing]).historyAppend = true) := by
  refine ⟨⟨?_, ?_⟩, ?_, ?_⟩ <;> rfl

/-- Claim C5: when the daemon already reports at least
max_active_downloads active downloads, a torrent submission is abandoned
at the admission-control check: no add-torrent call is made, no history
entry is appended, and the run ends in the capacity outcome. -/
theorem C5_theorem (item : TorrentItem) (cfg : TCfg) (active : Nat)
    (addOk : Bool) (located : Option String) (polls : List PollStep)
    (hdir : item.isDirect = false)
    (hcap : cfg.max_active_downloads ≤ active) :
    download_with_progress item cfg active addOk located polls =
      ⟨0, false, .capacity⟩ := by
  simp [download_with_progress, hdir, hcap]

/-- Claim C5 (witness): with max_active_downloads = 1 and the daemon
reporting 1 active download, submission is abandoned with no add call
and no history append. -/
theorem C5_witness :
    download_with_progress ⟨false, some ("magnet:?xt=a"), none⟩ ⟨1, false⟩ 1
      true none [] = ⟨0, false, .capacity⟩ :=
  C5_theorem _ _ _ _ _ _ rfl (le_refl 1)

/-- Claim C8: in the search mapping loop, an element whose construction
raises is skipped individually and every remaining well-formed element
is still returned, in order: removing one malformed record from the
batch leaves the output exactly the concatenation of the outputs of the
surrounding well-formed slices, and a well-formed head is kept. -/
theorem C8_theorem :
    (∀ (xs ys : List JVal) (bad : JVal) (e : String),
      from_api_response bad = .error e →
      searchResults (xs ++ bad :: ys) = searchResults xs ++ searchResults ys) ∧
    (∀ (g : JVal) (r : SearchResult) (rest : List JVal),
      from_api_response g = .ok r →
      searchResults (g :: rest) = r :: searchResults rest) := by
  constructor
  · intro xs ys bad e hbad
    induction xs with
    | nil => simp [searchResults, hbad]
    | cons x xs ih =>
      simp only [List.cons_append, searchResults]
      cases hx : from_api_response x <;> simp [hx, ih]
  · intro g r rest hg
    simp [searchResults, hg]

/-- A malformed record: a bare string, on which data.get raises. -/
def c8bad : JVal := .jstr ("oops")

/-- A well-formed record. -/
def c8good1 : JVal := .jobj [("title", .jstr ("A"))]

/-- Another well-formed record. -/
def c8good2 : JVal := .jobj [("title", .jstr ("B"))]

/-- Claim C8 (witness): a malformed record between two well-formed ones
is skipped while both others are returned in order. -/
theorem C8_witness :
    from_api_response c8bad = .error ("AttributeError") ∧
    searchResults [c8good1, c8bad, c8good2] =
      searchResults [c8good1] ++ searchResults [c8good2] :=
  ⟨rfl, C8_theorem.1 [c8good1] [c8good2] c8bad ("AttributeError") rfl⟩

/-- Claim C3 (counterexample): a schedule_runner iteration in which the
daemon connection attempt raises — the schedule and config reads both
succeed — propagates that exception out of the loop body instead of
catching it, refuting the claim that neither loop ever lets an
exception propagate. -/
theorem C3_counterexample :
    (schedule_runner_tick ⟨.ok [], .ok (), .error (), 0, fun _ _ => 0⟩).result =
      .error () := by
  rfl

/-- Claim C3 (amended): health_monitor catches exceptions from the
aggregator probe and from the daemon session attempt inside its tick
and continues (any config read outcome included, its tick returns
normally whenever the unguarded config read succeeds), but an exception
in the config read propagates out of its loop body; schedule_runner
catches nothing inside its loop body, so a daemon connection failure
(or a persisted-file read failure) propagates out of the loop. -/
theorem C3_theorem :
    (∀ (env : HealthEnv) (i : Nat), env.configRead = .ok i →
      ∃ out, health_monitor_tick env = .ok out) ∧
    (∀ (p : Except Unit Nat) (d : Except Unit Unit),
      health_monitor_tick ⟨.error (), p, d⟩ = .error ()) ∧
    (∀ (s : Except Unit (List STask)) (c : Except Unit Unit) (n : Int)
      (f : String → Nat → Nat),
      (schedule_runner_tick ⟨s, c, .error (), n, f⟩).result = .error ()) := by
  refine ⟨?_, ?_, ?_⟩
  · intro env i h
    unfold health_monitor_tick
    rw [h]
    exact ⟨_, rfl⟩
  · intro p d
    rfl
  · intro s c n f
    cases s with
    | error e => cases e; rfl
    | ok l =>
      cases c with
      | error e => cases e; rfl
      | ok u => cases u; rfl

/-- Claim C3 (witness): a probe failure is absorbed by health_monitor's
tick, a config read failure escapes it, and a daemon connection failure
escapes schedule_runner's tick. -/
theorem C3_witness :
    (∃ out, health_monitor_tick ⟨.ok 3600, .error (), .ok ()⟩ = .ok out) ∧
    health_monitor_tick ⟨.error (), .ok 200, .ok ()⟩ = .error () ∧
    (schedule_runner_tick
      ⟨.ok [⟨("q"), 0, false, 5⟩], .ok (), .error (), 7, fun _ _ => 1⟩).result =
        .error () :=
  ⟨C3_theorem.1 ⟨.ok 3600, .error (), .ok ()⟩ 3600 rfl,
   C3_theorem.2.1 (.ok 200) (.ok ()),
   C3_theorem.2.2 (.ok [⟨("q"), 0, false, 5⟩]) (.ok ()) 7 (fun _ _ => 1)⟩

/-- Claim C10: the download-by-index command indexes the saved
last-results list only under the guard 1 <= index <= length; any
out-of-range index (the empty list included) yields the error report
with nothing delegated to the daemon and no file written, while an
in-range index makes the Python indexing succeed. -/
theorem C10_theorem (results : List JVal) (index : Int) :
    (¬(1 ≤ index ∧ index ≤ (results.length : Int)) →
      download_command results index = ⟨none, true, 0⟩) ∧
    ((1 ≤ index ∧ index ≤ (results.length : Int)) →
      ∃ item, pyListIndex results (index - 1) = .ok item ∧
        download_command results index = ⟨some item, false, 0⟩) := by
  constructor
  · intro h
    simp [download_command, h]
  · rintro ⟨h1, h2⟩
    have hj : ¬(index - 1 < 0) := by omega
    have hb : 0 ≤ index - 1 ∧ index - 1 < (results.length : Int) := by omega
    have hpy : pyListIndex results (index - 1) =
        .ok (results.get ⟨(index - 1).toNat, by omega⟩) := by
      unfold pyListIndex
      simp only [hj, if_false]
      rw [dif_pos hb]
    refine ⟨_, hpy, ?_⟩
    unfold download_command
    rw [if_pos ⟨h1, h2⟩, hpy]

/-- Claim C10 (witness): on a one-element saved list, index 2 is
rejected with no delegation and index 1 delegates the sole element. -/
theorem C10_witness :
    download_command [JVal.jstr ("a")] 2 = ⟨none, true, 0⟩ ∧
    ∃ item, pyListIndex [JVal.jstr ("a")] 0 = .ok item ∧
      download_command [JVal.jstr ("a")] 1 = ⟨some item, false, 0⟩ :=
  ⟨(C10_theorem [JVal.jstr ("a")] 2).1 (by norm_num),
   (C10_theorem [JVal.jstr ("a")] 1).2 (by norm_num)⟩


/-- Unfolding: an exhausted budget performs no attempt. -/
theorem download_loop_zero (att : Nat → DLAttempt) (idx : Nat) (file : Option Nat) :
    download_loop att idx 0 file = ⟨file, false, [], [], [], 0⟩ := rfl

/-- Unfolding: a successful attempt appends its bytes and stops. -/
theorem download_loop_ok (att : Nat → DLAttempt) (idx n : Nat) (file : Option Nat)
    (b : Nat) (hA : att idx = .ok b) :
    download_loop att idx (n + 1) file =
      ⟨some (file.getD 0 + b), true, [],
        [if 0 < file.getD 0 then some (file.getD 0) else none], [file], 1⟩ := by
  simp only [download_loop, hA]

/-- Unfolding: a failure on the last allowed attempt deletes the partial
file and stops. -/
theorem download_loop_failAt_last (att : Nat → DLAttempt) (idx : Nat)
    (file : Option Nat) (w : Nat) (hA : att idx = .failAt w) :
    download_loop att idx 1 file =
      ⟨none, false, [],
        [if 0 < file.getD 0 then some (file.getD 0) else none], [file], 1⟩ := by
  simp [download_loop, hA]

/-- Unfolding: a mid-stream failure with budget left writes its bytes,
waits 2, and retries on the grown file. -/
theorem download_loop_failAt_step (att : Nat → DLAttempt) (idx n : Nat)
    (file : Option Nat) (w : Nat) (hA : att idx = .failAt w) (hn : n ≠ 0) :
    download_loop att idx (n + 1) file =
      ⟨(download_loop att (idx + 1) n (some (file.getD 0 + w))).file,
        (download_loop att (idx + 1) n (some (file.getD 0 + w))).success,
        2 :: (download_loop att (idx + 1) n (some (file.getD 0 + w))).waits,
        (if 0 < file.getD 0 then some (file.getD 0) else none) ::
          (download_loop att (idx + 1) n (some (file.getD 0 + w))).offsets,
        file :: (download_loop att (idx + 1) n (some (file.getD 0 + w))).files,
        (download_loop att (idx + 1) n (some (file.getD 0 + w))).attempts + 1⟩ := by
  simp only [download_loop, hA, if_neg hn]

/-- Unfolding: a failure before the file is opened on the last allowed
attempt deletes the partial file and stops. -/
theorem download_loop_failOpen_last (att : Nat → DLAttempt) (idx : Nat)
    (file : Option Nat) (hA : att idx = .failBeforeOpen) :
    download_loop att idx 1 file =
      ⟨none, false, [],
        [if 0 < file.getD 0 then some (file.getD 0) else none], [file], 1⟩ := by
  simp [download_loop, hA]

/-- Unfolding: a failure before the file is opened, with budget left,
waits 2 and retries on the unchanged file. -/
theorem download_loop_failOpen_step (att : Nat → DLAttempt) (idx n : Nat)
    (file : Option Nat) (hA : att idx = .failBeforeOpen) (hn : n ≠ 0) :
    download_loop att idx (n + 1) file =
      ⟨(download_loop att (idx + 1) n file).file,
        (download_loop att (idx + 1) n file).success,
        2 :: (download_loop att (idx + 1) n file).waits,
        (if 0 < file.getD 0 then some (file.getD 0) else none) ::
          (download_loop att (idx + 1) n file).offsets,
        file :: (download_loop att (idx + 1) n file).files,
        (download_loop att (idx + 1) n file).attempts + 1⟩ := by
  simp only [download_loop, hA, if_neg hn]

/-- The retry loop makes at most as many attempts as the budget left. -/
theorem download_loop_attempts_le (att : Nat → DLAttempt) (idx fuel : Nat)
    (file : Option Nat) : (download_loop att idx fuel file).attempts ≤ fuel := by
  induction fuel generalizing idx file with
  | zero => simp [download_loop_zero]
  | succ n ih =>
    cases hA : att idx with
    | ok b => rw [download_loop_ok att idx n file b hA]; simp
    | failAt w =>
      by_cases hn : n = 0
      · subst hn; rw [download_loop_failAt_last att idx file w hA]
      · rw [download_loop_failAt_step att idx n file w hA hn]
        exact Nat.succ_le_succ (ih (idx + 1) _)
    | failBeforeOpen =>
      by_cases hn : n = 0
      · subst hn; rw [download_loop_failOpen_last att idx file hA]
      · rw [download_loop_failOpen_step att idx n file hA hn]
        exact Nat.succ_le_succ (ih (idx + 1) _)

/-- With budget left, the retry loop makes at least one attempt. -/
theorem download_loop_attempts_pos (att : Nat → DLAttempt) (idx fuel : Nat)
    (file : Option Nat) (h : 0 < fuel) :
    0 < (download_loop att idx fuel file).attempts := by
  cases fuel with
  | zero => omega
  | succ n =>
    cases hA : att idx with
    | ok b => rw [download_loop_ok att idx n file b hA]; simp
    | failAt w =>
      by_cases hn : n = 0
      · subst hn; rw [download_loop_failAt_last att idx file w hA]; simp
      · rw [download_loop_failAt_step att idx n file w hA hn]; simp
    | failBeforeOpen =>
      by_cases hn : n = 0
      · subst hn; rw [download_loop_failOpen_last att idx file hA]; simp
      · rw [download_loop_failOpen_step att idx n file hA hn]; simp

/-- Every wait between attempts is exactly 2 time units: one wait after
each failed non-final attempt. -/
theorem download_loop_waits (att : Nat → DLAttempt) (idx fuel : Nat)
    (file : Option Nat) :
    (download_loop att idx fuel file).waits =
      List.replicate ((download_loop att idx fuel file).attempts - 1) 2 := by
  induction fuel generalizing idx file with
  | zero => rfl
  | succ n ih =>
    cases hA : att idx with
    | ok b => rw [download_loop_ok att idx n file b hA]; simp
    | failAt w =>
      by_cases hn : n = 0
      · subst hn; rw [download_loop_failAt_last att idx file w hA]; simp
      · rw [download_loop_failAt_step att idx n file w hA hn]
        have hpos := download_loop_attempts_pos att (idx + 1) n
          (some (file.getD 0 + w)) (Nat.pos_of_ne_zero hn)
        simp only [Nat.add_sub_cancel]
        rw [← Nat.succ_pred_eq_of_pos hpos, List.replicate_succ,
          ih (idx + 1) (some (file.getD 0 + w))]
        rfl
    | failBeforeOpen =>
      by_cases hn : n = 0
      · subst hn; rw [download_loop_failOpen_last att idx file hA]; simp
      · rw [download_loop_failOpen_step att idx n file hA hn]
        have hpos := download_loop_attempts_pos att (idx + 1) n file
          (Nat.pos_of_ne_zero hn)
        simp only [Nat.add_sub_cancel]
        rw [← Nat.succ_pred_eq_of_pos hpos, List.replicate_succ, ih (idx + 1) file]
        rfl

/-- Each attempt sends a Range header exactly when the file it found on
disk is non-empty, resuming from exactly that size. -/
theorem download_loop_offsets (att : Nat → DLAttempt) (idx fuel : Nat)
    (file : Option Nat) :
    (download_loop att idx fuel file).offsets =
      (download_loop att idx fuel file).files.map
        (fun f => if 0 < f.getD 0 then some (f.getD 0) else none) := by
  induction fuel generalizing idx file with
  | zero => rfl
  | succ n ih =>
    cases hA : att idx with
    | ok b => rw [download_loop_ok att idx n file b hA]; simp
    | failAt w =>
      by_cases hn : n = 0
      · subst hn; rw [download_loop_failAt_last att idx file w hA]; simp
      · rw [download_loop_failAt_step att idx n file w hA hn]
        simp only [List.map_cons]
        rw [← ih (idx + 1) (some (file.getD 0 + w))]
    | failBeforeOpen =>
      by_cases hn : n = 0
      · subst hn; rw [download_loop_failOpen_last att idx file hA]; simp
      · rw [download_loop_failOpen_step att idx n file hA hn]
        simp only [List.map_cons]
        rw [← ih (idx + 1) file]

/-- A run that ends in failure used its whole attempt budget and only
then deleted the partial file. -/
theorem download_loop_failure (att : Nat → DLAttempt) (idx fuel : Nat)
    (file : Option Nat) :
    0 < fuel → (download_loop att idx fuel file).success = false →
    (download_loop att idx fuel file).attempts = fuel ∧
    (download_loop att idx fuel file).file = none := by
  induction fuel generalizing idx file with
  | zero => intro h; omega
  | succ n ih =>
    intro _ h
    cases hA : att idx with
    | ok b => rw [download_loop_ok att idx n file b hA] at h; simp at h
    | failAt w =>
      by_cases hn : n = 0
      · subst hn; rw [download_loop_failAt_last att idx file w hA]
        exact ⟨rfl, rfl⟩
      · rw [download_loop_failAt_step att idx n file w hA hn] at h ⊢
        have := ih (idx + 1) (some (file.getD 0 + w)) (Nat.pos_of_ne_zero hn) h
        exact ⟨by rw [this.1], this.2⟩
    | failBeforeOpen =>
      by_cases hn : n = 0
      · subst hn; rw [download_loop_failOpen_last att idx file hA]
        exact ⟨rfl, rfl⟩
      · rw [download_loop_failOpen_step att idx n file hA hn] at h ⊢
        have := ih (idx + 1) file (Nat.pos_of_ne_zero hn) h
        exact ⟨by rw [this.1], this.2⟩

/-- With budget left, the first recorded file state is the file the loop
was entered with. -/
theorem download_loop_files_first (att : Nat → DLAttempt) (idx fuel : Nat)
    (file : Option Nat) (h : 0 < fuel) :
    (download_loop att idx fuel file).files.get? 0 = some file := by
  cases fuel with
  | zero => omega
  | succ n =>
    cases hA : att idx with
    | ok b => rw [download_loop_ok att idx n file b hA]; rfl
    | failAt w =>
      by_cases hn : n = 0
      · subst hn; rw [download_loop_failAt_last att idx file w hA]; rfl
      · rw [download_loop_failAt_step att idx n file w hA hn]; rfl
    | failBeforeOpen =>
      by_cases hn : n = 0
      · subst hn; rw [download_loop_failOpen_last att idx file hA]; rfl
      · rw [download_loop_failOpen_step att idx n file hA hn]; rfl

/-- The partial file is never discarded between attempts: along the run
the file only grows. -/
theorem download_loop_files_mono (att : Nat → DLAttempt) (idx fuel : Nat)
    (file : Option Nat) :
    ∀ i f g, (download_loop att idx fuel file).files.get? i = some f →
      (download_loop att idx fuel file).files.get? (i + 1) = some g →
      f.getD 0 ≤ g.getD 0 := by
  induction fuel generalizing idx file with
  | zero =>
    intro i f g h1 _
    rw [download_loop_zero] at h1
    simp at h1
  | succ n ih =>
    intro i f g h1 h2
    cases hA : att idx with
    | ok b =>
      rw [download_loop_ok att idx n file b hA] at h2
      cases i <;> simp at h2
    | failAt w =>
      by_cases hn : n = 0
      · subst hn
        rw [download_loop_failAt_last att idx file w hA] at h2
        cases i <;> simp at h2
      · rw [download_loop_failAt_step att idx n file w hA hn] at h1 h2
        cases i with
        | zero =>
          simp only [List.get?_cons_zero, Option.some.injEq] at h1
          simp only [List.get?_cons_succ] at h2
          have hf := download_loop_files_first att (idx + 1) n
            (some (file.getD 0 + w)) (Nat.pos_of_ne_zero hn)
          rw [hf] at h2
          cases h2
          subst h1
          simp
        | succ j =>
          simp only [List.get?_cons_succ] at h1 h2
          exact ih (idx + 1) (some (file.getD 0 + w)) j f g h1 h2
    | failBeforeOpen =>
      by_cases hn : n = 0
      · subst hn
        rw [download_loop_failOpen_last att idx file hA] at h2
        cases i <;> simp at h2
      · rw [download_loop_failOpen_step att idx n file hA hn] at h1 h2
        cases i with
        | zero =>
          simp only [List.get?_cons_zero, Option.some.injEq] at h1
          simp only [List.get?_cons_succ] at h2
          have hf := download_loop_files_first att (idx + 1) n file
            (Nat.pos_of_ne_zero hn)
          rw [hf] at h2
          cases h2
          subst h1
          exact le_refl _
        | succ j =>
          simp only [List.get?_cons_succ] at h1 h2
          exact ih (idx + 1) file j f g h1 h2

/-- Claim C6: one direct download makes at most 3 streaming attempts, a
fixed wait of 2 time units follows each failed non-final attempt, each
attempt resumes exactly from the bytes already on disk (issuing a Range
header exactly when some bytes are present), the partial file only
grows between attempts, and only a run that exhausts all 3 attempts
deletes the partial file and fails. -/
theorem C6_theorem (att : Nat → DLAttempt) (file0 : Option Nat) :
    (download_direct_file att file0).attempts ≤ 3 ∧
    (download_direct_file att file0).waits =
      List.replicate ((download_direct_file att file0).attempts - 1) 2 ∧
    (download_direct_file att file0).offsets =
      (download_direct_file att file0).files.map
        (fun f => if 0 < f.getD 0 then some (f.getD 0) else none) ∧
    ((download_direct_file att file0).success = false →
      (download_direct_file att file0).attempts = 3 ∧
      (download_direct_file att file0).file = none) ∧
    (∀ i f g, (download_direct_file att file0).files.get? i = some f →
      (download_direct_file att file0).files.get? (i + 1) = some g →
      f.getD 0 ≤ g.getD 0) :=
  ⟨download_loop_attempts_le att 0 3 file0,
   download_loop_waits att 0 3 file0,
   download_loop_offsets att 0 3 file0,
   download_loop_failure att 0 3 file0 (by norm_num),
   download_loop_files_mono att 0 3 file0⟩

/-- An environment in which every streaming attempt dies after writing
4 more bytes. -/
def c6att : Nat → DLAttempt := fun _ => .failAt 4

/-- Claim C6 (witness): with every attempt failing after 4 bytes, the
run makes exactly 3 attempts, deletes the file only at the end, waits
2 twice, resumes at offsets 4 then 8, and the partial file grows
between consecutive attempts. -/
theorem C6_witness :
    ((download_direct_file c6att none).attempts = 3 ∧
     (download_direct_file c6att none).file = none) ∧
    (download_direct_file c6att none).waits = [2, 2] ∧
    (download_direct_file c6att none).offsets = [none, some 4, some 8] ∧
    (some 4 : Option Nat).getD 0 ≤ (some 8 : Option Nat).getD 0 :=
  ⟨(C6_theorem c6att none).2.2.2.1 rfl, rfl, rfl,
   (C6_theorem c6att none).2.2.2.2 1 (some 4) (some 8) rfl rfl⟩

/-- The record loop can never set the updated flag: the magnet
extraction raises before any record mutation is reached. -/
theorem schedule_tasks_updated_false (env : SchedEnv) (ts : List STask) :
    (schedule_runner_tasks env ts).updated = false := by
  induction ts with
  | nil => rfl
  | cons t ts ih =>
    simp only [schedule_runner_tasks]
    split
    · split
      · rfl
      · exact ih
    · exact ih

/-- The record loop never reaches a torrents_add call. -/
theorem schedule_tasks_adds_zero (env : SchedEnv) (ts : List STask) :
    (schedule_runner_tasks env ts).adds = 0 := by
  induction ts with
  | nil => rfl
  | cons t ts ih =>
    simp only [schedule_runner_tasks]
    split
    · split
      · rfl
      · exact ih
    · exact ih

/-- When the record loop completes, it leaves every record unchanged. -/
theorem schedule_tasks_ok_unchanged (env : SchedEnv) (ts : List STask) :
    ∀ l, (schedule_runner_tasks env ts).tasks = .ok l → l = ts := by
  induction ts with
  | nil =>
    intro l h
    simpa [schedule_runner_tasks] using h.symm
  | cons t ts ih =>
    intro l h
    simp only [schedule_runner_tasks] at h
    split at h
    · split at h
      · simp at h
      · cases hr : (schedule_runner_tasks env ts).tasks with
        | error e => rw [hr] at h; simp [Except.map] at h
        | ok l' =>
          rw [hr] at h
          simp only [Except.map, Except.ok.injEq] at h
          subst h
          rw [ih l' hr]
    · cases hr : (schedule_runner_tasks env ts).tasks with
      | error e => rw [hr] at h; simp [Except.map] at h
      | ok l' =>
        rw [hr] at h
        simp only [Except.map, Except.ok.injEq] at h
        subst h
        rw [ih l' hr]

/-- Every searched query belongs to a record that is not done and whose
time has arrived: done records never trigger a search. -/
theorem schedule_tasks_searched_mem (env : SchedEnv) (ts : List STask) :
    ∀ q ∈ (schedule_runner_tasks env ts).searched,
      ∃ t, t ∈ ts ∧ t.done = false ∧ t.time ≤ env.now ∧ t.query = q := by
  induction ts with
  | nil => intro q hq; simp [schedule_runner_tasks] at hq
  | cons t ts ih =>
    intro q hq
    simp only [schedule_runner_tasks] at hq
    split at hq
    · rename_i hfired
      split at hq
      · simp only [List.mem_singleton] at hq
        subst hq
        exact ⟨t, List.mem_cons_self t ts,
          by simpa using hfired.1, hfired.2, rfl⟩
      · simp only [List.mem_cons] at hq
        rcases hq with rfl | hq'
        · exact ⟨t, List.mem_cons_self t ts,
            by simpa using hfired.1, hfired.2, rfl⟩
        · obtain ⟨u, hu, h1, h2, h3⟩ := ih q hq'
          exact ⟨u, List.mem_cons_of_mem t hu, h1, h2, h3⟩
    · obtain ⟨u, hu, h1, h2, h3⟩ := ih q hq
      exact ⟨u, List.mem_cons_of_mem t hu, h1, h2, h3⟩

/-- A schedule of done records makes the whole loop a no-op. -/
theorem schedule_tasks_all_done (env : SchedEnv) (ts : List STask)
    (h : ∀ t ∈ ts, t.done = true) :
    schedule_runner_tasks env ts = ⟨.ok ts, false, [], 0⟩ := by
  induction ts with
  | nil => rfl
  | cons t ts ih =>
    have ht : t.done = true := h t (List.mem_cons_self t ts)
    have hrest := ih (fun u hu => h u (List.mem_cons_of_mem t hu))
    simp [schedule_runner_tasks, ht, hrest, Except.map]


/-- Characterization of a tick whose reads and connection succeed: the
result is exactly the record-loop outcome, nothing is ever written, and
the searches and adds are those of the record loop. -/
theorem schedule_runner_tick_eq (env : SchedEnv) (sched : List STask)
    (hs : env.scheduleRead = .ok sched)
    (hc : env.configRead = .ok ())
    (hd : env.daemonConnect = .ok ()) :
    schedule_runner_tick env =
      ⟨(schedule_runner_tasks env sched).tasks, 0, none,
        (schedule_runner_tasks env sched).searched,
        (schedule_runner_tasks env sched).adds⟩ := by
  have hu := schedule_tasks_updated_false env sched
  simp only [schedule_runner_tick, hs, hc, hd]
  cases hr : (schedule_runner_tasks env sched).tasks with
  | error e => simp [hr]
  | ok l2 => simp [hr, hu]

/-- Claim C9: a schedule_runner tick whose reads and daemon connection
succeed leaves the record set unchanged whenever it completes (so every
done record is untouched, and a second tick against records already
done behaves identically), attributes every search to a record that is
not done and whose time has arrived, performs no daemon submission,
writes the schedule file at most once and only with changed content,
and a tick over records that are all done is a complete no-op. -/
theorem C9_theorem (env : SchedEnv) (sched : List STask)
    (hs : env.scheduleRead = .ok sched)
    (hc : env.configRead = .ok ())
    (hd : env.daemonConnect = .ok ()) :
    (∀ l, (schedule_runner_tick env).result = .ok l → l = sched) ∧
    (schedule_runner_tick env).writes ≤ 1 ∧
    ((schedule_runner_tick env).writes = 1 →
      ∀ l, (schedule_runner_tick env).written = some l → l ≠ sched) ∧
    (∀ q ∈ (schedule_runner_tick env).searched,
      ∃ t, t ∈ sched ∧ t.done = false ∧ t.time ≤ env.now ∧ t.query = q) ∧
    (schedule_runner_tick env).adds = 0 ∧
    ((∀ t ∈ sched, t.done = true) →
      schedule_runner_tick env = ⟨.ok sched, 0, none, [], 0⟩) := by
  have heq := schedule_runner_tick_eq env sched hs hc hd
  rw [heq]
  refine ⟨?_, ?_, ?_, ?_, ?_, ?_⟩
  · intro l h
    exact schedule_tasks_ok_unchanged env sched l h
  · exact Nat.zero_le 1
  · intro h
    simp at h
  · exact schedule_tasks_searched_mem env sched
  · exact schedule_tasks_adds_zero env sched
  · intro hall
    rw [schedule_tasks_all_done env sched hall]

/-- One done schedule record. -/
def c9sched : List STask := [⟨("q1"), 0, true, 5⟩]

/-- A schedule_runner environment whose fetch would return results, over
a schedule whose only record is already done. -/
def c9env : SchedEnv := ⟨.ok c9sched, .ok (), .ok (), 10, fun _ _ => 3⟩

/-- Claim C9 (witness): a tick against an already-done record is a
no-op: record untouched, no search, no submission, no write. -/
theorem C9_witness :
    schedule_runner_tick c9env = ⟨.ok c9sched, 0, none, [], 0⟩ :=
  (C9_theorem c9env c9sched rfl rfl rfl).2.2.2.2.2 (by decide)

/-- The executable substring test agrees with list infix. -/
theorem isSub_iff_infix (needle hay : List Char) :
    isSub needle hay = true ↔ needle <:+: hay := by
  induction hay with
  | nil =>
    simp only [isSub, List.isEmpty_iff, List.infix_nil]
  | cons c t ih =>
    simp only [isSub, Bool.or_eq_true, List.isPrefixOf_iff_prefix, ih,
      List.infix_cons_iff]

/-- Claim C7: the handle-resolution match predicate holds exactly when
the lowercased title is a substring of the lowercased entry name, or
conversely, or some whitespace-separated word of the lowercased title
longer than 3 characters occurs in the lowercased entry name; in
particular title Ubuntu 24.04 Desktop matches entry
ubuntu-24.04-desktop-amd64, and title AB does not match entry XY. -/
theorem C7_theorem :
    (∀ title entry : List Char,
      find_torrent_match title entry = true ↔
        (pyLower title <:+: pyLower entry ∨ pyLower entry <:+: pyLower title ∨
          ∃ w, w ∈ pyWords (pyLower title) ∧ 3 < w.length ∧
            w <:+: pyLower entry)) ∧
    find_torrent_match (("Ubuntu 24.04 Desktop").toList)
      (("ubuntu-24.04-desktop-amd64").toList) = true ∧
    find_torrent_match (("AB").toList) (("XY").toList) = false := by
  refine ⟨?_, ?_, ?_⟩
  · intro title entry
    simp only [find_torrent_match, Bool.or_eq_true, isSub_iff_infix,
      List.any_eq_true, Bool.and_eq_true, decide_eq_true_eq]
    constructor
    · rintro ((h | h) | ⟨w, hw, hlen, hsub⟩)
      · exact Or.inl h
      · exact Or.inr (Or.inl h)
      · exact Or.inr (Or.inr ⟨w, hw, hlen, hsub⟩)
    · rintro (h | h | ⟨w, hw, hlen, hsub⟩)
      · exact Or.inl (Or.inl h)
      · exact Or.inl (Or.inr h)
      · exact Or.inr ⟨w, hw, hlen, hsub⟩
  · decide
  · decide

/-- A raw record marked direct in extra but carrying no mirror, only a
magnet URI. -/
def c4rec : JVal :=
  .jobj [("extra", .jobj [("download_type", .jstr ("direct"))]),
         ("magnet_uri", .jstr ("magnet:?xt=urn:btih:c4c4"))]

/-- Claim C4 (counterexample): the record above is accepted and yields a
SearchResult whose download kind is direct yet whose checksum
(info_hash) is empty and whose download url is the magnet URI — both
halves of the claimed invariant fail. -/
theorem C4_counterexample :
    (from_api_response c4rec).map SearchResult.download_type =
      .ok DownloadType.direct ∧
    (from_api_response c4rec).map SearchResult.info_hash = .ok (.jstr ("")) ∧
    (from_api_response c4rec).map SearchResult.download_url =
      .ok (.jstr ("magnet:?xt=urn:btih:c4c4")) :=
  ⟨rfl, rfl, rfl⟩

/-- Claim C4 (amended): a record whose effective download_type string is
direct is accepted as a direct SearchResult whose download url is the
extra mirror when that is non-empty, falling back to the record's
magnet_uri and then its link, and whose checksum (info_hash) is copied
verbatim from the record and may be empty; the claimed invariant holds
only when the record itself carries a non-empty mirror and info_hash. -/
theorem C4_theorem (kvs ekvs : List (String × JVal))
    (hx : (getField kvs ("extra")).getD (.jobj []) = .jobj ekvs)
    (hd : jEqStr (pyOr ((getField ekvs ("download_type")).getD .jnull)
                       ((getField kvs ("download_type")).getD (.jstr ("torrent"))))
          ("direct") = true) :
    ∃ r, from_api_response (.jobj kvs) = .ok r ∧
      r.download_type = DownloadType.direct ∧
      r.download_url =
        pyOr (pyOr ((getField ekvs ("mirror")).getD (.jstr ("")))
                   ((getField kvs ("magnet_uri")).getD (.jstr (""))))
             ((getField kvs ("link")).getD (.jstr (""))) ∧
      r.info_hash = (getField kvs ("info_hash")).getD (.jstr ("")) := by
  simp only [from_api_response, hx, hd, if_true]
  exact ⟨_, rfl, rfl, rfl, rfl⟩

/-- A well-behaved direct record: mirror and checksum both present. -/
def c4wkvs : List (String × JVal) :=
  [("extra", .jobj [("download_type", .jstr ("direct")),
                    ("mirror", .jstr ("http://m/x.pdf"))]),
   ("info_hash", .jstr ("abc123"))]

/-- The extra object of the well-behaved direct record. -/
def c4wekvs : List (String × JVal) :=
  [("download_type", .jstr ("direct")), ("mirror", .jstr ("http://m/x.pdf"))]

/-- Claim C4 (witness): the amended fallback rule evaluated on a record
carrying a mirror and a checksum. -/
theorem C4_witness :
    ∃ r, from_api_response (.jobj c4wkvs) = .ok r ∧
      r.download_type = DownloadType.direct ∧
      r.download_url =
        pyOr (pyOr ((getField c4wekvs ("mirror")).getD (.jstr ("")))
                   ((getField c4wkvs ("magnet_uri")).getD (.jstr (""))))
             ((getField c4wkvs ("link")).getD (.jstr (""))) ∧
      r.info_hash = (getField c4wkvs ("info_hash")).getD (.jstr ("")) :=
  C4_theorem c4wkvs c4wekvs rfl rfl
